import Mathlib

/-!
Verification of the conversation-recording and transcript-evaluation core of
the repository, as a shallow embedding in Lean.

Sources embedded:
- src/test_audio_transcription_evaluation.py (the SegmentAligner
  assign_speakers_to_segments, transcribe_full_audio, compute_wer_metrics);
- src/backend/services/conversation_recording_service.py (the session
  machine: start_recording_session, process_audio_chunk,
  process_complete_audio, end_recording_session, the fallback diarization
  and the per-segment transcription loop).

Modelling conventions:
- Python float times are modelled as exact rationals.
- The external pyannote.core data types (Segment, the diarization object)
  are modelled from their documented behaviour where the repository calls
  into them: Segment intersection, truthiness and duration; the sorted
  label list; the per-label timeline.
- Fallible calls (file writes, the two external engines) are modelled by
  explicit environment records saying which call succeeds, and exceptions
  by Except values.
-/

/-! ## Time segments (pyannote.core.Segment) -/

/-- A pyannote time segment, a pair of times in seconds.  The Python field
named end is a Lean keyword, so it is called endTime here. -/
structure Seg where
  start : ℚ
  endTime : ℚ
  deriving DecidableEq

/-- Segment intersection, pyannote Segment.__and__: the segment from the
larger start to the smaller end. -/
def segInter (a b : Seg) : Seg :=
  ⟨max a.start b.start, min a.endTime b.endTime⟩

/-- Duration of a segment as the aligner consumes it: the loop body adds
intersection.duration only when the intersection is truthy, and pyannote
gives a falsy segment duration 0, so the combined contribution is the
positive part of the extent. -/
def segDuration (s : Seg) : ℚ :=
  if s.start < s.endTime then s.endTime - s.start else 0

/-- Python int() applied to a rational: truncation toward zero. -/
def pyInt (q : ℚ) : ℤ :=
  if q < 0 then -⌊-q⌋ else ⌊q⌋

/-- The minutes/seconds pair computed by the format string
MM:SS with minutes int(t // 60) and seconds int(t % 60): Python floor
division, then truncation of the nonnegative remainder. -/
def toMMSS (t : ℚ) : ℤ × ℤ :=
  (⌊t / 60⌋, ⌊t - 60 * (⌊t / 60⌋ : ℚ)⌋)

/-- The time in seconds that a stored MM:SS pair denotes. -/
def mmssVal (p : ℤ × ℤ) : ℚ :=
  60 * (p.1 : ℚ) + (p.2 : ℚ)

/-! ## The aligner, assign_speakers_to_segments -/

/-- One segment of the transcription returned by transcribe_full_audio:
the dict with keys start, end, text. -/
structure ASRSegment where
  start : ℚ
  endTime : ℚ
  text : String
  deriving DecidableEq

/-- The fields of the utterance dict built by assign_speakers_to_segments
that carry pipeline data (id, timestamp and the constant confidence are
omitted; start_time and end_time hold the MM:SS pairs the format string
renders). -/
structure Utterance where
  speaker_id : String
  start_time : ℤ × ℤ
  end_time : ℤ × ℤ
  duration : ℤ
  text : String
  deriving DecidableEq

/-- A diarization result, pyannote.core.Annotation, modelled as its
chronologically ordered list of (segment, speaker label) pairs. -/
abbrev Diarization := List (Seg × String)

/-- Annotation.labels(): the distinct labels sorted by name
(pyannote.core returns sorted(self._labels, key=str)). -/
def labelsOf (d : Diarization) : List String :=
  ((d.map Prod.snd).dedup).insertionSort (· ≤ ·)

/-- Annotation.label_timeline(speaker): the segments carrying the given
label.  The aligner only sums over this list, so the chronological sorting
pyannote applies is immaterial here. -/
def labelTimeline (d : Diarization) (spk : String) : List Seg :=
  (d.filter (fun p => p.2 == spk)).map Prod.fst

/-- The inner loop of assign_speakers_to_segments: total overlap between
one ASR segment and the timeline of one speaker. -/
def overlapDuration (timeline : List Seg) (asr : Seg) : ℚ :=
  (timeline.map (fun g => segDuration (segInter g asr))).sum

/-- One step of the best-speaker scan: replace the best seen so far exactly
when the overlap strictly exceeds it. -/
def updBest (ov : String → ℚ) (b : Option String × ℚ) (k : String) :
    Option String × ℚ :=
  if b.2 < ov k then (some k, ov k) else b

/-- The best-speaker scan of assign_speakers_to_segments: fold over
labels() starting from best_speaker = None, best_overlap = 0.0. -/
def bestSpeaker (d : Diarization) (asr : Seg) : Option String × ℚ :=
  (labelsOf d).foldl
    (updBest (fun spk => overlapDuration (labelTimeline d spk) asr)) (none, 0)

/-- View of an ASR segment as a bare time segment. -/
def asSeg (s : ASRSegment) : Seg := ⟨s.start, s.endTime⟩

/-- assign_speakers_to_segments: one utterance per ASR segment.  The
speaker_id is written as in the source, best_speaker if best_speaker else
UNKNOWN, so Python truthiness maps both None and an empty label to the
sentinel. -/
def assign_speakers_to_segments (d : Diarization) (asr : List ASRSegment) :
    List Utterance :=
  asr.map (fun seg =>
    let best := bestSpeaker d (asSeg seg)
    { speaker_id :=
        match best.1 with
        | some spk => if spk = "" then "UNKNOWN" else spk
        | none => "UNKNOWN"
      start_time := toMMSS seg.start
      end_time := toMMSS seg.endTime
      duration := pyInt ((seg.endTime - seg.start) * 1000)
      text := seg.text })

/-- The overlap formula as the specification writes it: the sum over the
speaker segments of max(0, min(ends) - max(starts)). -/
def specOverlap (d : Diarization) (k : String) (s : Seg) : ℚ :=
  ((labelTimeline d k).map
    (fun g => max 0 (min g.endTime s.endTime - max g.start s.start))).sum

/-! ## Properties of the best-speaker scan -/

theorem overlapDuration_nonneg (tl : List Seg) (s : Seg) :
    0 ≤ overlapDuration tl s := by
  apply List.sum_nonneg
  intro x hx
  simp only [List.mem_map] at hx
  obtain ⟨g, -, rfl⟩ := hx
  by_cases hlt : (segInter g s).start < (segInter g s).endTime
  · simp only [segDuration, if_pos hlt]
    linarith
  · simp only [segDuration, if_neg hlt]
    exact le_refl 0

theorem segDuration_segInter (g s : Seg) :
    segDuration (segInter g s) =
      max 0 (min g.endTime s.endTime - max g.start s.start) := by
  show (if max g.start s.start < min g.endTime s.endTime
      then min g.endTime s.endTime - max g.start s.start else 0) = _
  rcases lt_or_le (max g.start s.start) (min g.endTime s.endTime) with h | h
  · rw [if_pos h, max_eq_right (sub_nonneg.mpr h.le)]
  · rw [if_neg (not_lt.mpr h), max_eq_left (sub_nonpos.mpr h)]

theorem overlapDuration_eq_specOverlap (d : Diarization) (k : String) (s : Seg) :
    overlapDuration (labelTimeline d k) s = specOverlap d k s := by
  unfold overlapDuration specOverlap
  simp only [segDuration_segInter]

theorem mem_labelsOf {d : Diarization} {k : String} :
    k ∈ labelsOf d ↔ ∃ p ∈ d, p.2 = k := by
  unfold labelsOf
  rw [(List.perm_insertionSort _ _).mem_iff, List.mem_dedup, List.mem_map]

theorem labelsOf_sorted (d : Diarization) :
    List.Sorted (· ≤ ·) (labelsOf d) :=
  List.sorted_insertionSort _ _

/-- Complete characterization of the best-speaker fold: either no label ever
beat the initial best (the fold returns the accumulator unchanged), or the
result is the first label attaining the running maximum, every earlier label
scoring strictly less and every later one at most as much. -/
theorem foldl_updBest_spec (ov : String → ℚ) :
    ∀ (L : List String) (acc : Option String × ℚ),
      (L.foldl (updBest ov) acc = acc ∧ ∀ k ∈ L, ov k ≤ acc.2) ∨
      (∃ l₁ spk l₂, L = l₁ ++ spk :: l₂ ∧
        L.foldl (updBest ov) acc = (some spk, ov spk) ∧ acc.2 < ov spk ∧
        (∀ k ∈ l₁, ov k < ov spk) ∧ (∀ k ∈ l₂, ov k ≤ ov spk)) := by
  intro L
  induction L with
  | nil =>
    intro acc
    left
    exact ⟨rfl, by simp⟩
  | cons k L ih =>
    intro acc
    by_cases h : acc.2 < ov k
    · have hfold : (k :: L).foldl (updBest ov) acc =
          L.foldl (updBest ov) (some k, ov k) := by
        simp [List.foldl, updBest, h]
      rcases ih (some k, ov k) with ⟨heq, hle⟩ |
        ⟨l₁, spk, l₂, hsplit, hres, hlt, hall₁, hall₂⟩
      · right
        refine ⟨[], k, L, rfl, ?_, h, by simp, ?_⟩
        · rw [hfold, heq]
        · intro x hx
          exact hle x hx
      · right
        refine ⟨k :: l₁, spk, l₂, by rw [hsplit]; rfl, ?_, ?_, ?_, hall₂⟩
        · rw [hfold, hres]
        · exact lt_trans h hlt
        · intro x hx
          rcases List.mem_cons.mp hx with rfl | hx
          · exact hlt
          · exact hall₁ x hx
    · have hfold : (k :: L).foldl (updBest ov) acc =
          L.foldl (updBest ov) acc := by
        simp [List.foldl, updBest, h]
      rcases ih acc with ⟨heq, hle⟩ |
        ⟨l₁, spk, l₂, hsplit, hres, hlt, hall₁, hall₂⟩
      · left
        constructor
        · rw [hfold, heq]
        · intro x hx
          rcases List.mem_cons.mp hx with rfl | hx
          · exact le_of_not_lt h
          · exact hle x hx
      · right
        refine ⟨k :: l₁, spk, l₂, by rw [hsplit]; rfl, ?_, hlt, ?_, hall₂⟩
        · rw [hfold, hres]
        · intro x hx
          rcases List.mem_cons.mp hx with rfl | hx
          · exact lt_of_le_of_lt (le_of_not_lt h) hlt
          · exact hall₁ x hx

/-- The utterance the aligner builds for one ASR segment: the body of the
map in assign_speakers_to_segments. -/
def alignOne (d : Diarization) (s : ASRSegment) : Utterance :=
  { speaker_id :=
      match (bestSpeaker d (asSeg s)).1 with
      | some spk => if spk = "" then "UNKNOWN" else spk
      | none => "UNKNOWN"
    start_time := toMMSS s.start
    end_time := toMMSS s.endTime
    duration := pyInt ((s.endTime - s.start) * 1000)
    text := s.text }

theorem assign_eq_map_alignOne (d : Diarization) (asr : List ASRSegment) :
    assign_speakers_to_segments d asr = asr.map (alignOne d) := rfl

theorem alignOne_speaker_id_of_none (d : Diarization) (s : ASRSegment)
    (h : (bestSpeaker d (asSeg s)).1 = none) :
    (alignOne d s).speaker_id = "UNKNOWN" := by
  unfold alignOne
  simp only [h]

theorem alignOne_speaker_id_of_some (d : Diarization) (s : ASRSegment)
    (spk : String) (h : (bestSpeaker d (asSeg s)).1 = some spk)
    (hne : spk ≠ "") : (alignOne d s).speaker_id = spk := by
  unfold alignOne
  simp only [h, if_neg hne]

/-- Claim C1: for every ASR segment s and diarization (with proper speaker
labels: none empty and none equal to the sentinel string itself, which the
data model never produces), the aligner emits exactly one utterance whose
label maximizes the total time overlap, the overlap being the sum over the
speaker segments of max(0, min(ends) - max(starts)); the label is UNKNOWN
exactly when every speaker overlaps s for 0 seconds.  On the concrete
example, the segment [5,12] against A = [(0,10)] and B = [(10,20)] has
overlap 5 with A, overlap 2 with B, and is assigned A. -/
theorem C1_max_overlap_assignment :
    (∀ (d : Diarization) (s : ASRSegment),
      (∀ p ∈ d, p.2 ≠ "" ∧ p.2 ≠ "UNKNOWN") →
      ∃ u, assign_speakers_to_segments d [s] = [u] ∧
        (∀ k, overlapDuration (labelTimeline d k) (asSeg s) =
          specOverlap d k (asSeg s)) ∧
        (u.speaker_id = "UNKNOWN" ↔
          ∀ k ∈ labelsOf d,
            overlapDuration (labelTimeline d k) (asSeg s) = 0) ∧
        (u.speaker_id ≠ "UNKNOWN" → u.speaker_id ∈ labelsOf d ∧
          ∀ k ∈ labelsOf d,
            overlapDuration (labelTimeline d k) (asSeg s) ≤
              overlapDuration (labelTimeline d u.speaker_id) (asSeg s))) ∧
    (overlapDuration
        (labelTimeline [(⟨0,10⟩,"A"), (⟨10,20⟩,"B")] "A") ⟨5,12⟩ = 5 ∧
     overlapDuration
        (labelTimeline [(⟨0,10⟩,"A"), (⟨10,20⟩,"B")] "B") ⟨5,12⟩ = 2 ∧
     (assign_speakers_to_segments [(⟨0,10⟩,"A"), (⟨10,20⟩,"B")]
        [⟨5,12,"hi"⟩]).map Utterance.speaker_id = ["A"]) := by
  have hA : overlapDuration
      (labelTimeline [(⟨0,10⟩,"A"), (⟨10,20⟩,"B")] "A") ⟨5,12⟩ = 5 := by
    have h : labelTimeline [(⟨0,10⟩,"A"), (⟨10,20⟩,"B")] "A" = [⟨0,10⟩] := by
      decide
    rw [h]
    norm_num [overlapDuration, segDuration, segInter, min_def, max_def]
  have hB : overlapDuration
      (labelTimeline [(⟨0,10⟩,"A"), (⟨10,20⟩,"B")] "B") ⟨5,12⟩ = 2 := by
    have h : labelTimeline [(⟨0,10⟩,"A"), (⟨10,20⟩,"B")] "B" = [⟨10,20⟩] := by
      decide
    rw [h]
    norm_num [overlapDuration, segDuration, segInter, min_def, max_def]
  constructor
  · intro d s hlab
    rcases foldl_updBest_spec
        (fun k => overlapDuration (labelTimeline d k) (asSeg s))
        (labelsOf d) (none, 0) with
      ⟨heq, hall⟩ | ⟨l₁, spk, l₂, hsplit, hres, hpos, h₁, h₂⟩
    · have hb : (bestSpeaker d (asSeg s)).1 = none := by
        have : bestSpeaker d (asSeg s) = (none, 0) := heq
        rw [this]
      have hid := alignOne_speaker_id_of_none d s hb
      refine ⟨alignOne d s, rfl,
        fun k => overlapDuration_eq_specOverlap d k (asSeg s), ?_, ?_⟩
      · rw [hid]
        refine iff_of_true rfl ?_
        intro k hk
        exact le_antisymm (hall k hk) (overlapDuration_nonneg _ _)
      · intro hne
        exact absurd hid hne
    · have hb : bestSpeaker d (asSeg s) =
          (some spk, overlapDuration (labelTimeline d spk) (asSeg s)) := hres
      have hpos' : 0 < overlapDuration (labelTimeline d spk) (asSeg s) := hpos
      have hmem : spk ∈ labelsOf d := by
        rw [hsplit]
        exact List.mem_append.mpr (Or.inr (List.mem_cons_self _ _))
      obtain ⟨p, hp, hpk⟩ := mem_labelsOf.mp hmem
      have hne : spk ≠ "" := hpk ▸ (hlab p hp).1
      have hnunk : spk ≠ "UNKNOWN" := hpk ▸ (hlab p hp).2
      have hid := alignOne_speaker_id_of_some d s spk (by rw [hb]) hne
      refine ⟨alignOne d s, rfl,
        fun k => overlapDuration_eq_specOverlap d k (asSeg s), ?_, ?_⟩
      · rw [hid]
        refine iff_of_false hnunk ?_
        intro hzero
        exact absurd (hzero spk hmem) (ne_of_gt hpos')
      · intro _
        rw [hid]
        refine ⟨hmem, ?_⟩
        intro k hk
        rw [hsplit] at hk
        rcases List.mem_append.mp hk with hk | hk
        · exact le_of_lt (h₁ k hk)
        · rcases List.mem_cons.mp hk with rfl | hk
          · exact le_refl _
          · exact h₂ k hk
  · refine ⟨hA, hB, ?_⟩
    have hlabels : labelsOf [(⟨0,10⟩,"A"), (⟨10,20⟩,"B")] = ["A", "B"] := by
      have h : ("A" : String) ≤ "B" := by
        rw [String.le_iff_toList_le]; decide
      simp [labelsOf, List.insertionSort, List.orderedInsert, h, List.dedup]
    have hbest : bestSpeaker [(⟨0,10⟩,"A"), (⟨10,20⟩,"B")] ⟨5,12⟩ =
        (some "A", 5) := by
      unfold bestSpeaker
      rw [hlabels]
      norm_num [List.foldl, updBest, hA, hB]
    have hid : (alignOne [(⟨0,10⟩,"A"), (⟨10,20⟩,"B")] ⟨5,12,"hi"⟩).speaker_id
        = "A" := by
      refine alignOne_speaker_id_of_some _ _ _ ?_ (by decide)
      show (bestSpeaker [(⟨0,10⟩,"A"), (⟨10,20⟩,"B")] ⟨5,12⟩).1 = some "A"
      rw [hbest]
    show ([alignOne [(⟨0,10⟩,"A"), (⟨10,20⟩,"B")] ⟨5,12,"hi"⟩]).map
        Utterance.speaker_id = ["A"]
    simp [hid]

/-- Witness for C1: the proper-labels hypothesis is satisfied by the example
diarization, and the theorem instantiates there. -/
theorem C1_max_overlap_assignment_witness :
    ∃ u, assign_speakers_to_segments [(⟨0,10⟩,"A"), (⟨10,20⟩,"B")]
        [⟨5,12,"hi"⟩] = [u] ∧
      (∀ k, overlapDuration
          (labelTimeline [(⟨0,10⟩,"A"), (⟨10,20⟩,"B")] k)
          (asSeg ⟨5,12,"hi"⟩) =
        specOverlap [(⟨0,10⟩,"A"), (⟨10,20⟩,"B")] k (asSeg ⟨5,12,"hi"⟩)) ∧
      (u.speaker_id = "UNKNOWN" ↔
        ∀ k ∈ labelsOf [(⟨0,10⟩,"A"), (⟨10,20⟩,"B")],
          overlapDuration
            (labelTimeline [(⟨0,10⟩,"A"), (⟨10,20⟩,"B")] k)
            (asSeg ⟨5,12,"hi"⟩) = 0) ∧
      (u.speaker_id ≠ "UNKNOWN" →
        u.speaker_id ∈ labelsOf [(⟨0,10⟩,"A"), (⟨10,20⟩,"B")] ∧
        ∀ k ∈ labelsOf [(⟨0,10⟩,"A"), (⟨10,20⟩,"B")],
          overlapDuration
            (labelTimeline [(⟨0,10⟩,"A"), (⟨10,20⟩,"B")] k)
            (asSeg ⟨5,12,"hi"⟩) ≤
          overlapDuration
            (labelTimeline [(⟨0,10⟩,"A"), (⟨10,20⟩,"B")] u.speaker_id)
            (asSeg ⟨5,12,"hi"⟩)) :=
  C1_max_overlap_assignment.1 [(⟨0,10⟩,"A"), (⟨10,20⟩,"B")] ⟨5,12,"hi"⟩
    (by decide)

/-! ## Permutation invariance and tie-breaking of the aligner -/

theorem labelsOf_perm {d d2 : Diarization} (h : d.Perm d2) :
    labelsOf d = labelsOf d2 := by
  refine List.eq_of_perm_of_sorted ?_ (labelsOf_sorted d) (labelsOf_sorted d2)
  exact (List.perm_insertionSort _ _).trans
    (((h.map Prod.snd).dedup).trans (List.perm_insertionSort _ _).symm)

theorem overlapDuration_labelTimeline_perm {d d2 : Diarization}
    (h : d.Perm d2) (k : String) (s : Seg) :
    overlapDuration (labelTimeline d k) s =
      overlapDuration (labelTimeline d2 k) s := by
  unfold overlapDuration labelTimeline
  exact List.Perm.sum_eq (((h.filter _).map _).map _)

theorem bestSpeaker_perm {d d2 : Diarization} (h : d.Perm d2) (s : Seg) :
    bestSpeaker d s = bestSpeaker d2 s := by
  unfold bestSpeaker
  rw [labelsOf_perm h]
  have hov : (fun k => overlapDuration (labelTimeline d k) s) =
      (fun k => overlapDuration (labelTimeline d2 k) s) := by
    funext k
    exact overlapDuration_labelTimeline_perm h k s
  rw [hov]

theorem alignOne_perm {d d2 : Diarization} (h : d.Perm d2) (s : ASRSegment) :
    alignOne d s = alignOne d2 s := by
  unfold alignOne
  rw [bestSpeaker_perm h]

/-- Counterexample to claim C5: in the diarization with B speaking on (0,5)
and A on (5,10), both speakers overlap the ASR segment [0,10] for 5 seconds,
a positive tie; the label with the earliest first occurrence in the
Annotation is B, yet the aligner assigns A, because the scan iterates the
sorted label list and keeps the first strict maximum. -/
theorem C5_counterexample :
    (assign_speakers_to_segments [(⟨0,5⟩,"B"), (⟨5,10⟩,"A")]
        [⟨0,10,"t"⟩]).map Utterance.speaker_id = ["A"] ∧
    overlapDuration
        (labelTimeline [(⟨0,5⟩,"B"), (⟨5,10⟩,"A")] "A") ⟨0,10⟩ = 5 ∧
    overlapDuration
        (labelTimeline [(⟨0,5⟩,"B"), (⟨5,10⟩,"A")] "B") ⟨0,10⟩ = 5 ∧
    (0:ℚ) < 5 ∧
    ((([(⟨0,5⟩,"B"), (⟨5,10⟩,"A")] : Diarization)).map Prod.snd).indexOf "B" <
      ((([(⟨0,5⟩,"B"), (⟨5,10⟩,"A")] : Diarization)).map Prod.snd).indexOf "A" ∧
    ("A" : String) ≠ "B" := by
  have hA : overlapDuration
      (labelTimeline [(⟨0,5⟩,"B"), (⟨5,10⟩,"A")] "A") ⟨0,10⟩ = 5 := by
    have h : labelTimeline [(⟨0,5⟩,"B"), (⟨5,10⟩,"A")] "A" = [⟨5,10⟩] := by
      decide
    rw [h]
    norm_num [overlapDuration, segDuration, segInter, min_def, max_def]
  have hB : overlapDuration
      (labelTimeline [(⟨0,5⟩,"B"), (⟨5,10⟩,"A")] "B") ⟨0,10⟩ = 5 := by
    have h : labelTimeline [(⟨0,5⟩,"B"), (⟨5,10⟩,"A")] "B" = [⟨0,5⟩] := by
      decide
    rw [h]
    norm_num [overlapDuration, segDuration, segInter, min_def, max_def]
  refine ⟨?_, hA, hB, by norm_num, by decide, by decide⟩
  have hlabels : labelsOf [(⟨0,5⟩,"B"), (⟨5,10⟩,"A")] = ["A", "B"] := by
    have h : ¬ (("B" : String) ≤ "A") := by
      rw [String.le_iff_toList_le]; decide
    simp [labelsOf, List.insertionSort, List.orderedInsert, h, List.dedup]
  have hbest : bestSpeaker [(⟨0,5⟩,"B"), (⟨5,10⟩,"A")] ⟨0,10⟩ =
      (some "A", 5) := by
    unfold bestSpeaker
    rw [hlabels]
    norm_num [List.foldl, updBest, hA, hB]
  have hid : (alignOne [(⟨0,5⟩,"B"), (⟨5,10⟩,"A")] ⟨0,10,"t"⟩).speaker_id
      = "A" := by
    refine alignOne_speaker_id_of_some _ _ _ ?_ (by decide)
    show (bestSpeaker [(⟨0,5⟩,"B"), (⟨5,10⟩,"A")] ⟨0,10⟩).1 = some "A"
    rw [hbest]
  show ([alignOne [(⟨0,5⟩,"B"), (⟨5,10⟩,"A")] ⟨0,10,"t"⟩]).map
      Utterance.speaker_id = ["A"]
  simp [hid]

/-- Amended claim C5: when two or more speakers attain the same maximal
positive overlap, the aligner picks the lexicographically least of the tied
labels (the first in the sorted label list over which it scans), not the
one occurring earliest in the Annotation; the choice is deterministic and
independent of ordering artifacts: permuting the Annotation leaves the
output utterance unchanged. -/
theorem C5_tie_break_lexicographic :
    ∀ (d : Diarization) (s : ASRSegment),
      ∃ u, assign_speakers_to_segments d [s] = [u] ∧
        (u.speaker_id ≠ "UNKNOWN" → u.speaker_id ∈ labelsOf d ∧
          ∀ k ∈ labelsOf d,
            overlapDuration (labelTimeline d k) (asSeg s) =
              overlapDuration (labelTimeline d u.speaker_id) (asSeg s) →
            u.speaker_id ≤ k) ∧
        (∀ d2 : Diarization, d.Perm d2 →
          assign_speakers_to_segments d2 [s] = [u]) := by
  intro d s
  refine ⟨alignOne d s, rfl, ?_, ?_⟩
  · intro hne
    rcases foldl_updBest_spec
        (fun k => overlapDuration (labelTimeline d k) (asSeg s))
        (labelsOf d) (none, 0) with
      ⟨heq, -⟩ | ⟨l₁, spk, l₂, hsplit, hres, -, h₁, h₂⟩
    · exact absurd (alignOne_speaker_id_of_none d s
        (by rw [show bestSpeaker d (asSeg s) = (none, 0) from heq])) hne
    · by_cases hspk : spk = ""
      · have : (alignOne d s).speaker_id = "UNKNOWN" := by
          unfold alignOne
          rw [show bestSpeaker d (asSeg s) =
            (some spk, overlapDuration (labelTimeline d spk) (asSeg s))
            from hres]
          simp [hspk]
        exact absurd this hne
      · have hid := alignOne_speaker_id_of_some d s spk (by rw [show
          bestSpeaker d (asSeg s) =
            (some spk, overlapDuration (labelTimeline d spk) (asSeg s))
          from hres]) hspk
        rw [hid]
        have hmem : spk ∈ labelsOf d := by
          rw [hsplit]
          exact List.mem_append.mpr (Or.inr (List.mem_cons_self _ _))
        refine ⟨hmem, ?_⟩
        intro k hk hkeq
        have hsorted := labelsOf_sorted d
        rw [hsplit] at hk hsorted
        rcases List.mem_append.mp hk with hk | hk
        · exact absurd hkeq (ne_of_lt (h₁ k hk))
        · rcases List.mem_cons.mp hk with rfl | hk
          · exact le_refl _
          · exact (List.pairwise_cons.mp
              (List.pairwise_append.mp hsorted).2.1).1 k hk
  · intro d2 hperm
    show (assign_speakers_to_segments d2 [s]) = [alignOne d s]
    rw [show assign_speakers_to_segments d2 [s] = [alignOne d2 s] from rfl,
      alignOne_perm hperm.symm s]

/-- Counterexample to claim C9: for the ASR segment from 0 to 3/2000
seconds, the stored duration is 1 ms although round((end - start) * 1000)
is 2, because the source truncates with int(...); and the stored end_time
is the MM:SS pair (0, 0), denoting 0 seconds, not the segment end 3/2000
copied unchanged. -/
theorem C9_counterexample :
    (assign_speakers_to_segments [] [⟨0, 3/2000, "t"⟩]).map
        Utterance.duration = [1] ∧
    round (((3:ℚ)/2000 - 0) * 1000) = 2 ∧
    (1 : ℤ) ≠ 2 ∧
    (assign_speakers_to_segments [] [⟨0, 3/2000, "t"⟩]).map
        Utterance.end_time = [(0, 0)] ∧
    mmssVal (0, 0) = 0 ∧
    (0 : ℚ) ≠ 3/2000 := by
  have hdur : pyInt (((3:ℚ)/2000 - 0) * 1000) = 1 := by
    norm_num [pyInt]
  have hend : toMMSS ((3:ℚ)/2000) = (0, 0) := by
    norm_num [toMMSS, Prod.ext_iff]
  refine ⟨?_, by rw [round_eq]; norm_num, by decide, ?_,
    by norm_num [mmssVal], by norm_num⟩
  · show ([alignOne [] ⟨0, 3/2000, "t"⟩]).map Utterance.duration = [1]
    simp only [List.map, alignOne]
    rw [show pyInt (((3:ℚ)/2000 - 0) * 1000) = 1 from hdur]
  · show ([alignOne [] ⟨0, 3/2000, "t"⟩]).map Utterance.end_time = [(0, 0)]
    simp only [List.map, alignOne]
    rw [show toMMSS ((3:ℚ)/2000) = (0, 0) from hend]

/-- Amended claim C9: each ASR segment yields exactly one utterance, in
order; its start_time and end_time are the segment times rendered as MM:SS
pairs (fractional seconds lost to truncation), its duration is
int((end - start) * 1000) with Python int, truncation toward zero (not
round), and its text is the segment text.  The Forall2 correspondence also
forces equal lengths, stated explicitly as the last conjunct. -/
theorem C9_one_utterance_per_segment :
    ∀ (d : Diarization) (asr : List ASRSegment),
      List.Forall₂ (fun (s : ASRSegment) (u : Utterance) =>
        u.start_time = toMMSS s.start ∧ u.end_time = toMMSS s.endTime ∧
        u.duration = pyInt ((s.endTime - s.start) * 1000) ∧ u.text = s.text)
        asr (assign_speakers_to_segments d asr) ∧
      (assign_speakers_to_segments d asr).length = asr.length := by
  intro d asr
  have hf : List.Forall₂ (fun (s : ASRSegment) (u : Utterance) =>
      u.start_time = toMMSS s.start ∧ u.end_time = toMMSS s.endTime ∧
      u.duration = pyInt ((s.endTime - s.start) * 1000) ∧ u.text = s.text)
      asr (assign_speakers_to_segments d asr) := by
    rw [assign_eq_map_alignOne]
    induction asr with
    | nil => exact List.Forall₂.nil
    | cons s rest ih => exact List.Forall₂.cons ⟨rfl, rfl, rfl, rfl⟩ ih
  exact ⟨hf, hf.length_eq.symm⟩

/-! ## Fallback diarization, _fallback_speaker_diarization -/

/-- One fallback segment dict, with keys start, end, speaker. -/
structure FallbackSeg where
  start : ℚ
  endTime : ℚ
  speaker : String
  deriving DecidableEq

/-- The two-digit speaker label of the f-string SPEAKER_{i:02d}, exact for
i < 100; the loop only ever passes 0 or 1. -/
def speakerLabel (i : ℕ) : String :=
  "SPEAKER_" ++ (if i < 10 then "0" else "") ++ toString i

/-- The while loop of _fallback_speaker_diarization: emit the window from
current to min(current + 10, duration), advance to its end, flip the
speaker index modulo 2.  fuel bounds the number of iterations; the
top-level wrapper passes enough for the loop to run to completion. -/
def fallbackLoop (duration : ℚ) : ℕ → ℚ → ℕ → List FallbackSeg
  | 0, _, _ => []
  | fuel + 1, current, spk =>
    if current < duration then
      ⟨current, min (current + 10) duration, speakerLabel spk⟩ ::
        fallbackLoop duration fuel (min (current + 10) duration)
          ((spk + 1) % 2)
    else []

/-- _fallback_speaker_diarization for an audio asset of the given duration:
10-second windows from 0, labels alternating over 2 speakers. -/
def fallback_speaker_diarization (duration : ℚ) : List FallbackSeg :=
  fallbackLoop duration (⌈duration⌉.toNat + 1) 0 0

/-- The list tiles the interval from a up to b without gaps or overlaps:
each window starts where the previous one ended, is nonempty, ends at
min(start + 10, b), and the tiling stops exactly at b. -/
def TilesFrom (b : ℚ) : ℚ → List FallbackSeg → Prop
  | a, [] => a = b
  | a, s :: rest => s.start = a ∧ a < s.endTime ∧
      s.endTime = min (a + 10) b ∧ TilesFrom b s.endTime rest

/-- The speaker labels alternate round-robin over 2 speakers, the window at
offset i carrying label SPEAKER_{i mod 2 :02d}. -/
def RoundRobinFrom : ℕ → List FallbackSeg → Prop
  | _, [] => True
  | i, s :: rest => s.speaker = speakerLabel (i % 2) ∧
      RoundRobinFrom (i + 1) rest

theorem fallbackLoop_tiles (duration : ℚ) :
    ∀ (fuel : ℕ) (current : ℚ) (spk : ℕ),
      current ≤ duration → duration - current ≤ 10 * (fuel : ℚ) →
      TilesFrom duration current (fallbackLoop duration fuel current spk) := by
  intro fuel
  induction fuel with
  | zero =>
    intro current spk hle hfuel
    have hc : current = duration := by
      push_cast at hfuel
      linarith
    simp [fallbackLoop, TilesFrom, hc]
  | succ fuel ih =>
    intro current spk hle hfuel
    by_cases h : current < duration
    · simp only [fallbackLoop, if_pos h]
      refine ⟨rfl, lt_min (by linarith) h, rfl, ?_⟩
      apply ih
      · exact min_le_right _ _
      · push_cast at hfuel ⊢
        rcases le_or_lt (current + 10) duration with hc | hc
        · rw [min_eq_left hc]
          linarith
        · rw [min_eq_right hc.le]
          have : (0:ℚ) ≤ 10 * (fuel : ℚ) := by positivity
          linarith
    · simp only [fallbackLoop, if_neg h]
      have hc : current = duration := le_antisymm hle (not_lt.mp h)
      simp [TilesFrom, hc]

theorem fallbackLoop_roundRobin (duration : ℚ) :
    ∀ (fuel : ℕ) (current : ℚ) (i : ℕ),
      RoundRobinFrom i (fallbackLoop duration fuel current (i % 2)) := by
  intro fuel
  induction fuel with
  | zero =>
    intro current i
    simp [fallbackLoop, RoundRobinFrom]
  | succ fuel ih =>
    intro current i
    by_cases h : current < duration
    · simp only [fallbackLoop, if_pos h]
      refine ⟨rfl, ?_⟩
      have hm : (i % 2 + 1) % 2 = (i + 1) % 2 := by omega
      rw [hm]
      exact ih _ (i + 1)
    · simp only [fallbackLoop, if_neg h]
      trivial

/-- Claim C2: for every audio asset of total duration D ≥ 0, the fallback
diarization tiles [0, D) with contiguous, gapless, non-overlapping windows
of 10 seconds (the last one possibly shorter), labelled round-robin over 2
speakers; for D = 40 the result is exactly the four windows
(0,10,SPEAKER_00), (10,20,SPEAKER_01), (20,30,SPEAKER_00),
(30,40,SPEAKER_01). -/
theorem C2_fallback_windows :
    (∀ duration : ℚ, 0 ≤ duration →
      TilesFrom duration 0 (fallback_speaker_diarization duration) ∧
      RoundRobinFrom 0 (fallback_speaker_diarization duration)) ∧
    fallback_speaker_diarization 40 =
      [⟨0, 10, "SPEAKER_00"⟩, ⟨10, 20, "SPEAKER_01"⟩,
       ⟨20, 30, "SPEAKER_00"⟩, ⟨30, 40, "SPEAKER_01"⟩] := by
  constructor
  · intro duration hD
    constructor
    · apply fallbackLoop_tiles duration (⌈duration⌉.toNat + 1) 0 0 hD
      have h1 : duration ≤ (⌈duration⌉ : ℚ) := Int.le_ceil duration
      have h2 : ((⌈duration⌉ : ℤ) : ℚ) ≤ ((⌈duration⌉.toNat : ℤ) : ℚ) := by
        exact_mod_cast Int.self_le_toNat _
      have h3 : (0:ℚ) ≤ ((⌈duration⌉.toNat : ℕ) : ℚ) := Nat.cast_nonneg _
      push_cast at h2 ⊢
      linarith
    · exact fallbackLoop_roundRobin duration (⌈duration⌉.toNat + 1) 0 0
  · show fallbackLoop 40 (⌈(40:ℚ)⌉.toNat + 1) 0 0 = _
    rw [show ⌈(40:ℚ)⌉.toNat + 1 = 41 from by decide]
    have h0 : speakerLabel 0 = "SPEAKER_00" := by decide
    have h1 : speakerLabel 1 = "SPEAKER_01" := by decide
    norm_num [fallbackLoop, min_def, h0, h1]

/-- Witness for C2: the nonnegative-duration hypothesis holds at D = 40. -/
theorem C2_fallback_windows_witness :
    TilesFrom 40 0 (fallback_speaker_diarization 40) ∧
    RoundRobinFrom 0 (fallback_speaker_diarization 40) :=
  C2_fallback_windows.1 40 (by norm_num)

/-! ## Word error rate, compute_wer_metrics

The repository delegates the WER core to the external jiwer library, which
is not part of the source tree; following the specification, it is
modelled as word-level edit distance over whitespace-separated words
divided by the reference word count, with the stated edge case
WER(empty, empty) = 0. -/

/-- Tokenizer helper: chars still to read, reversed chars of the current
word; emits maximal nonempty runs of non-space characters. -/
def wordsOfChars : List Char → List Char → List String
  | [], acc => if acc.isEmpty then [] else [⟨acc.reverse⟩]
  | c :: cs, acc =>
    if c = ' ' then
      (if acc.isEmpty then [] else [⟨acc.reverse⟩]) ++ wordsOfChars cs []
    else wordsOfChars cs (c :: acc)

/-- Whitespace tokenization: the words of a transcript string.  Modelled
from the spec: jiwer reduces each transcript to its list of
space-separated words. -/
def splitWords (s : String) : List String :=
  wordsOfChars s.toList []

/-- Word-level Levenshtein distance, substitutions, insertions and
deletions all costing 1.  Modelled from the spec: WER counts edit
operations on words. -/
def editDistance : List String → List String → ℕ
  | [], ys => ys.length
  | x :: xs, [] => (x :: xs).length
  | x :: xs, y :: ys =>
    if x = y then editDistance xs ys
    else 1 + min (editDistance xs (y :: ys))
      (min (editDistance (x :: xs) ys) (editDistance xs ys))
termination_by xs ys => xs.length + ys.length

/-- The WER score of one reference/hypothesis pair.  Modelled from the
spec: (substitutions + insertions + deletions) / reference word count,
and WER(empty, empty) = 0. -/
def wer (reference hypothesis : String) : ℚ :=
  if (splitWords reference).isEmpty ∧ (splitWords hypothesis).isEmpty then 0
  else (editDistance (splitWords reference) (splitWords hypothesis) : ℚ) /
    ((splitWords reference).length : ℚ)

/-- compute_wer_metrics: join the reference texts and the hypothesis texts
with single spaces and score the two joined strings. -/
def compute_wer_metrics (reference_texts hypothesis_texts : List String) :
    ℚ :=
  wer (String.intercalate " " reference_texts)
    (String.intercalate " " hypothesis_texts)

theorem editDistance_self (l : List String) : editDistance l l = 0 := by
  induction l with
  | nil => simp [editDistance]
  | cons x xs ih => simp [editDistance, ih]

/-- Claim C10: the WER computation scores 0 for any transcript against
itself (nonempty included), 0 for empty reference against empty
hypothesis, and 1 for the reference a b against an empty hypothesis. -/
theorem C10_wer_edge_cases :
    (∀ texts : List String, compute_wer_metrics texts texts = 0) ∧
    compute_wer_metrics [] [] = 0 ∧
    compute_wer_metrics ["a b"] [""] = 1 := by
  refine ⟨?_, ?_, ?_⟩
  · intro texts
    unfold compute_wer_metrics wer
    by_cases h :
        (splitWords (String.intercalate " " texts)).isEmpty = true
    · rw [if_pos ⟨h, h⟩]
    · rw [if_neg (fun hc => h hc.1), editDistance_self]
      norm_num
  · have h : splitWords (String.intercalate " " ([] : List String)) = [] :=
      by decide
    unfold compute_wer_metrics wer
    rw [if_pos ⟨by rw [h]; rfl, by rw [h]; rfl⟩]
  · have hr : splitWords (String.intercalate " " ["a b"]) = ["a", "b"] :=
      by decide
    have hh : splitWords (String.intercalate " " [""]) = [] := by decide
    have hd : editDistance ["a", "b"] [] = 2 := by simp [editDistance]
    unfold compute_wer_metrics wer
    rw [hr, hh, hd]
    norm_num

/-! ## The recording service, conversation_recording_service.py -/

/-- The Python exception relevant to the embedded control flow. -/
inductive PyError
  | attributeError
  deriving DecidableEq

/-- A track yielded by itertracks(yield_label=True): the segment and the
label (the middle track-name component is discarded by the service). -/
abbrev Track := Seg × String

/-- The dynamic result of _process_speaker_diarization: a real pyannote
Annotation, the fallback MockDiarization object (which defines only
__init__ and __iter__), or the EmptyDiarization object returned when the
fallback cannot read the audio file (also __iter__ only). -/
inductive DiarizationResult
  | real (tracks : List Track)
  | mock (segments : List FallbackSeg)
  | emptyFallback
  deriving DecidableEq

/-- Python attribute lookup of .itertracks on the diarization result: a
pyannote Annotation has the method; MockDiarization and EmptyDiarization
do not, so the lookup raises AttributeError. -/
def DiarizationResult.itertracks :
    DiarizationResult → Except PyError (List Track)
  | .real tracks => .ok tracks
  | .mock _ => .error .attributeError
  | .emptyFallback => .error .attributeError

/-- The environment of one diarization call: whether the pipeline object
was loaded, whether the engine raises at call time, what the engine
returns when it succeeds, whether the fallback can read the audio file,
and the decoded audio duration in seconds. -/
structure DiarizationEnv where
  pipelineLoaded : Bool
  engineRaises : Bool
  engineTracks : List Track
  audioReadOk : Bool
  duration : ℚ
  deriving DecidableEq

/-- The fallback branch of _process_speaker_diarization: a MockDiarization
over the windowed heuristic, or EmptyDiarization when reading the audio
file raises. -/
def fallbackResult (env : DiarizationEnv) : DiarizationResult :=
  if env.audioReadOk then .mock (fallback_speaker_diarization env.duration)
  else .emptyFallback

/-- _process_speaker_diarization: delegate to the engine when the pipeline
is loaded and the call does not raise; otherwise fall back. -/
def process_speaker_diarization (env : DiarizationEnv) : DiarizationResult :=
  if env.pipelineLoaded then
    if env.engineRaises then fallbackResult env else .real env.engineTracks
  else fallbackResult env

/-- The hardcoded speaker mapping of _get_speaker_name. -/
def speaker_mapping : List (String × String) :=
  [("SPEAKER_00", "Interviewer"), ("SPEAKER_01", "Interview Subject"),
   ("SPEAKER_02", "Additional Speaker")]

/-- _get_speaker_name: an exact id match in the participant list first,
then the default mapping, then the generic Speaker prefix. -/
def get_speaker_name (participants : List (String × String))
    (speaker_id : String) : String :=
  match participants.find? (fun p => p.1 == speaker_id) with
  | some p => p.2
  | none =>
    match speaker_mapping.find? (fun p => p.1 == speaker_id) with
    | some p => p.2
    | none => "Speaker " ++ speaker_id

/-- The utterance dict built by _transcribe_speaker_segments (id,
timestamp, audio_segment_path and the confidence string omitted). -/
structure ServiceUtterance where
  speaker_id : String
  speaker_name : String
  start_time : ℤ × ℤ
  end_time : ℤ × ℤ
  duration : ℤ
  text : String
  deriving DecidableEq

/-- The environment of the transcription calls: whether the openai module
imported, and the text the engine returns for the session audio file (the
same full file is sent on every call). -/
structure TranscriptionEnv where
  openaiAvailable : Bool
  whisperText : String
  deriving DecidableEq

/-- _transcribe_speaker_segments: iterate the diarization result through
itertracks; the AttributeError the fallback objects raise is caught by the
surrounding try and yields the empty utterance list.  The second component
records the audio paths passed to the engine: one invocation per track
when openai is available, each one opening the full session audio file
(_transcribe_audio_segment receives start and end but sends the whole
file). -/
def transcribe_speaker_segments (env : TranscriptionEnv) (path : String)
    (d : DiarizationResult) (participants : List (String × String)) :
    List ServiceUtterance × List String :=
  match d.itertracks with
  | .error _ => ([], [])
  | .ok tracks =>
    (tracks.map (fun t =>
      { speaker_id := t.2
        speaker_name := get_speaker_name participants t.2
        start_time := toMMSS t.1.start
        end_time := toMMSS t.1.endTime
        duration := pyInt ((t.1.endTime - t.1.start) * 1000)
        text := if env.openaiAvailable then env.whisperText else "" }),
     if env.openaiAvailable then tracks.map (fun _ => path) else [])

/-! ## The session registry and lifecycle -/

/-- One session dict of active_sessions, restricted to the fields the
claims touch.  statusHistory is a ghost field recording every value
assigned to the status key, in order, so the transition claims can be
stated. -/
structure SessionData where
  status : String
  audio_chunks : List ℕ
  participants : List (String × String)
  utterances : List ServiceUtterance
  statusHistory : List String
  deriving DecidableEq

/-- The in-memory active-session registry, an association list keyed by
session id.  Python dict assignment is modelled as remove-then-append,
which agrees with dict lookup and membership; only the iteration order
differs, and nothing embedded depends on it. -/
abbrev Registry := List (String × SessionData)

def lookupSession (reg : Registry) (sid : String) : Option SessionData :=
  (reg.find? (fun p => p.1 == sid)).map Prod.snd

def updateSession (reg : Registry) (sid : String) (s : SessionData) :
    Registry :=
  (reg.filter (fun p => p.1 != sid)) ++ [(sid, s)]

def eraseSession (reg : Registry) (sid : String) : Registry :=
  reg.filter (fun p => p.1 != sid)

/-- The two terminal error modes of the embedded service calls:
the ValueError raised for an unknown session id, and an uncaught
persistence failure. -/
inductive SvcError
  | sessionNotFound
  | ioError
  deriving DecidableEq

/-- The default two-party participant scheme of start_recording_session. -/
def defaultParticipants : List (String × String) :=
  [("interviewer", "Interviewer"), ("subject", "Interview Subject")]

/-- start_recording_session: allocate an active session with an empty
chunk buffer under the given fresh id. -/
def start_recording_session (reg : Registry) (sid : String)
    (participants : Option (List (String × String))) : Registry :=
  updateSession reg sid
    { status := "active"
      audio_chunks := []
      participants := participants.getD defaultParticipants
      utterances := []
      statusHistory := ["active"] }

/-- process_audio_chunk: raise the SessionNotFound ValueError when the id
is not in the registry, else append the chunk and return the chunk count.
The status field is not consulted. -/
def process_audio_chunk (reg : Registry) (sid : String) (chunk : ℕ) :
    Except SvcError ℕ × Registry :=
  match lookupSession reg sid with
  | none => (.error .sessionNotFound, reg)
  | some s =>
    (.ok (s.audio_chunks ++ [chunk]).length,
     updateSession reg sid
       { s with audio_chunks := s.audio_chunks ++ [chunk] })

/-- The dict process_complete_audio returns: either the caught error dict
or the processed payload; engineCalls records the audio paths sent to the
transcription engine. -/
structure ProcessOutcome where
  errorDict : Bool
  utterances : List ServiceUtterance
  engineCalls : List String
  deriving DecidableEq

/-- The audio asset path of a session: session_dir/complete_audio.wav. -/
def audioPathOf (sid : String) : String :=
  sid ++ "/complete_audio.wav"

/-- process_complete_audio: SessionNotFound on an unknown id; when saving
the combined audio raises, the surrounding try catches the exception and
returns the error dict, with the session untouched; otherwise diarization
runs (it never raises: engine failures fall back), each speaker segment is
transcribed, the utterances are stored, and status is set to processed. -/
def process_complete_audio (saveOk : Bool) (denv : DiarizationEnv)
    (tenv : TranscriptionEnv) (reg : Registry) (sid : String) :
    Except SvcError ProcessOutcome × Registry :=
  match lookupSession reg sid with
  | none => (.error .sessionNotFound, reg)
  | some s =>
    if saveOk then
      (.ok { errorDict := false
             utterances := (transcribe_speaker_segments tenv
               (audioPathOf sid) (process_speaker_diarization denv)
               s.participants).1
             engineCalls := (transcribe_speaker_segments tenv
               (audioPathOf sid) (process_speaker_diarization denv)
               s.participants).2 },
       updateSession reg sid
         { s with
             utterances := (transcribe_speaker_segments tenv
               (audioPathOf sid) (process_speaker_diarization denv)
               s.participants).1
             status := "processed"
             statusHistory := s.statusHistory ++ ["processed"] })
    else
      (.ok { errorDict := true, utterances := [], engineCalls := [] }, reg)

/-- The environment of one end_recording_session call: which external
effect points succeed. -/
structure EndEnv where
  saveAudioOk : Bool
  diarEnv : DiarizationEnv
  transEnv : TranscriptionEnv
  saveTransOk : Bool
  deriving DecidableEq

/-- The dict end_recording_session returns: the error dict passthrough or
the completed payload.  finalHistory is the ghost status history of the
session at the moment it leaves the registry. -/
structure EndResult where
  errorDict : Bool
  status : Option String
  utterances : List ServiceUtterance
  engineCalls : List String
  finalHistory : List String
  deriving DecidableEq

/-- end_recording_session: SessionNotFound on an unknown id; set status to
processing; run process_complete_audio; pass its error dict through with
the session kept; else save the transcription file (an uncaught failure
there propagates, with the session kept); on success remove the session
from the registry and return the completed payload. -/
def end_recording_session (env : EndEnv) (reg : Registry) (sid : String) :
    Except SvcError EndResult × Registry :=
  match lookupSession reg sid with
  | none => (.error .sessionNotFound, reg)
  | some s =>
    match process_complete_audio env.saveAudioOk env.diarEnv env.transEnv
        (updateSession reg sid
          { s with status := "processing",
                   statusHistory := s.statusHistory ++ ["processing"] })
        sid with
    | (.error e, reg2) => (.error e, reg2)
    | (.ok out, reg2) =>
      if out.errorDict then
        (.ok { errorDict := true, status := none, utterances := [],
               engineCalls := [], finalHistory := [] }, reg2)
      else if env.saveTransOk then
        (.ok { errorDict := false, status := some "completed",
               utterances := out.utterances,
               engineCalls := out.engineCalls,
               finalHistory :=
                 match lookupSession reg2 sid with
                 | some s2 => s2.statusHistory
                 | none => [] },
         eraseSession reg2 sid)
      else (.error .ioError, reg2)

/-! ## Registry lemmas -/

theorem find?_filter_ne (reg : Registry) (sid : String) :
    (reg.filter (fun p => p.1 != sid)).find? (fun p => p.1 == sid)
      = none := by
  apply List.find?_eq_none.mpr
  intro p hp
  have h := (List.mem_filter.mp hp).2
  simp only [bne_iff_ne, ne_eq, decide_eq_true_eq] at h
  simpa using h

theorem find?_append_singleton (l : Registry) (sid : String)
    (s : SessionData) (h : l.find? (fun p => p.1 == sid) = none) :
    (l ++ [(sid, s)]).find? (fun p => p.1 == sid) = some (sid, s) := by
  induction l with
  | nil => simp
  | cons q l ih =>
    by_cases hq : (q.1 == sid) = true
    · have hn := List.find?_eq_none.mp h q (List.mem_cons_self q l)
      exact absurd hq (by simpa using hn)
    · have hq' : (q.1 == sid) = false := by simpa using hq
      rw [List.cons_append]
      simp only [List.find?, hq'] at h ⊢
      exact ih h

theorem lookupSession_updateSession_self (reg : Registry) (sid : String)
    (s : SessionData) :
    lookupSession (updateSession reg sid s) sid = some s := by
  unfold lookupSession updateSession
  rw [find?_append_singleton _ _ _ (find?_filter_ne reg sid)]
  rfl

theorem lookupSession_eraseSession_self (reg : Registry) (sid : String) :
    lookupSession (eraseSession reg sid) sid = none := by
  unfold lookupSession eraseSession
  rw [find?_filter_ne]
  rfl

theorem mem_updateSession {reg : Registry} {sid : String} {s : SessionData}
    {p : String × SessionData} (h : p ∈ updateSession reg sid s) :
    p ∈ reg ∨ p = (sid, s) := by
  rcases List.mem_append.mp h with h | h
  · exact Or.inl (List.mem_filter.mp h).1
  · exact Or.inr (List.mem_singleton.mp h)

theorem mem_eraseSession {reg : Registry} {sid : String}
    {p : String × SessionData} (h : p ∈ eraseSession reg sid) :
    p ∈ reg :=
  (List.mem_filter.mp h).1

theorem mem_of_lookupSession {reg : Registry} {sid : String}
    {s : SessionData} (h : lookupSession reg sid = some s) :
    (sid, s) ∈ reg := by
  unfold lookupSession at h
  cases hf : reg.find? (fun p => p.1 == sid) with
  | none => rw [hf] at h; exact absurd h (by simp)
  | some p =>
    rw [hf] at h
    have h2 : p.2 = s := by simpa using h
    have hmem := List.mem_of_find?_eq_some hf
    have hpe : p.1 = sid := by
      have hp := List.find?_some hf
      simpa using hp
    rw [← h2, ← hpe]
    simpa using hmem

/-! ## Step lemmas for the service calls -/

theorem pca_notfound (saveOk : Bool) (denv : DiarizationEnv)
    (tenv : TranscriptionEnv) (reg : Registry) (sid : String)
    (h : lookupSession reg sid = none) :
    process_complete_audio saveOk denv tenv reg sid =
      (.error .sessionNotFound, reg) := by
  unfold process_complete_audio
  rw [h]

theorem pca_found_saveFail (denv : DiarizationEnv)
    (tenv : TranscriptionEnv) (reg : Registry) (sid : String)
    (s : SessionData) (h : lookupSession reg sid = some s) :
    process_complete_audio false denv tenv reg sid =
      (.ok { errorDict := true, utterances := [], engineCalls := [] },
       reg) := by
  unfold process_complete_audio
  rw [h]
  rfl

theorem pca_found_saveOk (denv : DiarizationEnv) (tenv : TranscriptionEnv)
    (reg : Registry) (sid : String) (s : SessionData)
    (h : lookupSession reg sid = some s) :
    process_complete_audio true denv tenv reg sid =
      (.ok { errorDict := false
             utterances := (transcribe_speaker_segments tenv
               (audioPathOf sid) (process_speaker_diarization denv)
               s.participants).1
             engineCalls := (transcribe_speaker_segments tenv
               (audioPathOf sid) (process_speaker_diarization denv)
               s.participants).2 },
       updateSession reg sid
         { s with
             utterances := (transcribe_speaker_segments tenv
               (audioPathOf sid) (process_speaker_diarization denv)
               s.participants).1
             status := "processed"
             statusHistory := s.statusHistory ++ ["processed"] }) := by
  unfold process_complete_audio
  rw [h]
  rfl

theorem end_notfound (env : EndEnv) (reg : Registry) (sid : String)
    (h : lookupSession reg sid = none) :
    end_recording_session env reg sid = (.error .sessionNotFound, reg) := by
  unfold end_recording_session
  rw [h]

theorem end_found_saveFail (env : EndEnv) (reg : Registry) (sid : String)
    (s : SessionData) (hlk : lookupSession reg sid = some s)
    (hsave : env.saveAudioOk = false) :
    end_recording_session env reg sid =
      (.ok { errorDict := true, status := none, utterances := [],
             engineCalls := [], finalHistory := [] },
       updateSession reg sid
         { s with status := "processing",
                  statusHistory := s.statusHistory ++ ["processing"] }) := by
  unfold end_recording_session
  split
  · next heq => rw [hlk] at heq; exact Option.noConfusion heq
  · next s' heq =>
    rw [hlk] at heq
    injection heq with heq
    subst heq
    split
    · next e reg2 h2 =>
      rw [hsave, pca_found_saveFail env.diarEnv env.transEnv _ sid _
        (lookupSession_updateSession_self reg sid _)] at h2
      exact Prod.noConfusion h2 (fun ha _ => Except.noConfusion ha)
    · next out reg2 h2 =>
      rw [hsave, pca_found_saveFail env.diarEnv env.transEnv _ sid _
        (lookupSession_updateSession_self reg sid _)] at h2
      injection h2 with ha hb
      injection ha with ha
      subst ha
      subst hb
      rfl

theorem end_found_success (env : EndEnv) (reg : Registry) (sid : String)
    (s : SessionData) (hlk : lookupSession reg sid = some s)
    (hsave : env.saveAudioOk = true) (htrans : env.saveTransOk = true) :
    end_recording_session env reg sid =
      (.ok { errorDict := false, status := some "completed",
             utterances := (transcribe_speaker_segments env.transEnv
               (audioPathOf sid) (process_speaker_diarization env.diarEnv)
               s.participants).1,
             engineCalls := (transcribe_speaker_segments env.transEnv
               (audioPathOf sid) (process_speaker_diarization env.diarEnv)
               s.participants).2,
             finalHistory :=
               (s.statusHistory ++ ["processing"]) ++ ["processed"] },
       eraseSession (updateSession
         (updateSession reg sid
           { s with status := "processing",
                    statusHistory := s.statusHistory ++ ["processing"] })
         sid
         { s with
             utterances := (transcribe_speaker_segments env.transEnv
               (audioPathOf sid) (process_speaker_diarization env.diarEnv)
               s.participants).1
             status := "processed"
             statusHistory :=
               (s.statusHistory ++ ["processing"]) ++ ["processed"] })
         sid) := by
  unfold end_recording_session
  split
  · next heq => rw [hlk] at heq; exact Option.noConfusion heq
  · next s' heq =>
    rw [hlk] at heq
    injection heq with heq
    subst heq
    split
    · next e reg2 h2 =>
      rw [hsave, pca_found_saveOk env.diarEnv env.transEnv _ sid _
        (lookupSession_updateSession_self reg sid _)] at h2
      exact Prod.noConfusion h2 (fun ha _ => Except.noConfusion ha)
    · next out reg2 h2 =>
      rw [hsave, pca_found_saveOk env.diarEnv env.transEnv _ sid _
        (lookupSession_updateSession_self reg sid _)] at h2
      injection h2 with ha hb
      injection ha with ha
      subst ha
      subst hb
      rw [htrans, lookupSession_updateSession_self]
      rfl

theorem end_found_transFail (env : EndEnv) (reg : Registry) (sid : String)
    (s : SessionData) (hlk : lookupSession reg sid = some s)
    (hsave : env.saveAudioOk = true) (htrans : env.saveTransOk = false) :
    end_recording_session env reg sid =
      (.error .ioError,
       updateSession
         (updateSession reg sid
           { s with status := "processing",
                    statusHistory := s.statusHistory ++ ["processing"] })
         sid
         { s with
             utterances := (transcribe_speaker_segments env.transEnv
               (audioPathOf sid) (process_speaker_diarization env.diarEnv)
               s.participants).1
             status := "processed"
             statusHistory :=
               (s.statusHistory ++ ["processing"]) ++ ["processed"] }) := by
  unfold end_recording_session
  split
  · next heq => rw [hlk] at heq; exact Option.noConfusion heq
  · next s' heq =>
    rw [hlk] at heq
    injection heq with heq
    subst heq
    split
    · next e reg2 h2 =>
      rw [hsave, pca_found_saveOk env.diarEnv env.transEnv _ sid _
        (lookupSession_updateSession_self reg sid _)] at h2
      exact Prod.noConfusion h2 (fun ha _ => Except.noConfusion ha)
    · next out reg2 h2 =>
      rw [hsave, pca_found_saveOk env.diarEnv env.transEnv _ sid _
        (lookupSession_updateSession_self reg sid _)] at h2
      injection h2 with ha hb
      injection ha with ha
      subst ha
      subst hb
      rw [htrans]
      rfl

/-! ## Claims C3 and C4 -/

theorem itertracks_fallbackResult (e : DiarizationEnv) :
    (fallbackResult e).itertracks = .error .attributeError := by
  unfold fallbackResult
  by_cases ha : e.audioReadOk = true
  · rw [if_pos ha]
    rfl
  · rw [if_neg ha]
    rfl

theorem itertracks_fallback_path (denv : DiarizationEnv)
    (hfb : denv.pipelineLoaded = false ∨ denv.engineRaises = true) :
    (process_speaker_diarization denv).itertracks =
      .error .attributeError := by
  unfold process_speaker_diarization
  by_cases hl : denv.pipelineLoaded = true
  · rw [if_pos hl]
    rcases hfb with h | h
    · rw [h] at hl
      exact absurd hl (by simp)
    · rw [if_pos h]
      exact itertracks_fallbackResult denv
  · rw [if_neg hl]
    exact itertracks_fallbackResult denv

/-- Claim C3: whenever the diarization fallback path is taken (pipeline
not loaded, or the engine raising at call time), the fallback result
defines only __iter__ while _transcribe_speaker_segments consumes it via
itertracks(yield_label=True); the AttributeError is caught and the empty
utterance list is returned — by the transcription helper, by
process_complete_audio, and by the finalize payload of
end_recording_session. -/
theorem C3_fallback_yields_no_utterances :
    ∀ denv : DiarizationEnv,
      denv.pipelineLoaded = false ∨ denv.engineRaises = true →
      (∀ (tenv : TranscriptionEnv) (path : String)
          (parts : List (String × String)),
        (transcribe_speaker_segments tenv path
          (process_speaker_diarization denv) parts).1 = []) ∧
      (∀ (saveOk : Bool) (tenv : TranscriptionEnv) (reg : Registry)
          (sid : String) (out : ProcessOutcome) (reg2 : Registry),
        process_complete_audio saveOk denv tenv reg sid = (.ok out, reg2) →
        out.utterances = []) ∧
      (∀ (env : EndEnv) (reg : Registry) (sid : String) (res : EndResult)
          (reg2 : Registry),
        env.diarEnv = denv →
        end_recording_session env reg sid = (.ok res, reg2) →
        res.utterances = []) := by
  intro denv hfb
  have hiter := itertracks_fallback_path denv hfb
  have htr : ∀ (tenv : TranscriptionEnv) (path : String)
      (parts : List (String × String)),
      (transcribe_speaker_segments tenv path
        (process_speaker_diarization denv) parts).1 = [] := by
    intro tenv path parts
    unfold transcribe_speaker_segments
    rw [hiter]
  refine ⟨htr, ?_, ?_⟩
  · intro saveOk tenv reg sid out reg2 h
    cases hlk : lookupSession reg sid with
    | none =>
      rw [pca_notfound saveOk denv tenv reg sid hlk] at h
      exact Prod.noConfusion h (fun ha _ => Except.noConfusion ha)
    | some s =>
      cases saveOk with
      | false =>
        rw [pca_found_saveFail denv tenv reg sid s hlk] at h
        injection h with ha hb
        injection ha with ha
        rw [← ha]
      | true =>
        rw [pca_found_saveOk denv tenv reg sid s hlk] at h
        injection h with ha hb
        injection ha with ha
        rw [← ha]
        exact htr tenv (audioPathOf sid) s.participants
  · intro env reg sid res reg2 hd h
    cases hlk : lookupSession reg sid with
    | none =>
      rw [end_notfound env reg sid hlk] at h
      exact Prod.noConfusion h (fun ha _ => Except.noConfusion ha)
    | some s =>
      cases hsave : env.saveAudioOk with
      | false =>
        rw [end_found_saveFail env reg sid s hlk hsave] at h
        injection h with ha hb
        injection ha with ha
        rw [← ha]
      | true =>
        cases htrans : env.saveTransOk with
        | false =>
          rw [end_found_transFail env reg sid s hlk hsave htrans] at h
          exact Prod.noConfusion h (fun ha _ => Except.noConfusion ha)
        | true =>
          rw [end_found_success env reg sid s hlk hsave htrans] at h
          injection h with ha hb
          injection ha with ha
          rw [← ha]
          rw [hd]
          exact htr env.transEnv (audioPathOf sid) s.participants

/-- Witness for C3: a concrete environment with the pipeline not loaded
takes the fallback path and produces no utterances. -/
theorem C3_fallback_yields_no_utterances_witness :
    (transcribe_speaker_segments
      { openaiAvailable := true, whisperText := "hi" } "p.wav"
      (process_speaker_diarization
        { pipelineLoaded := false, engineRaises := false,
          engineTracks := [], audioReadOk := true, duration := 0 })
      []).1 = [] :=
  (C3_fallback_yields_no_utterances
    { pipelineLoaded := false, engineRaises := false, engineTracks := [],
      audioReadOk := true, duration := 0 } (Or.inl rfl)).1
    { openaiAvailable := true, whisperText := "hi" } "p.wav" []

/-- The verbose response of the speech-to-text engine for one invocation:
the optional segment list (absent when the engine exposes no segment
attribute), the full text, and the optional duration attribute. -/
structure WhisperResponse where
  segments : Option (List ASRSegment)
  text : String
  duration : Option ℚ
  deriving DecidableEq

/-- transcribe_full_audio of the evaluation script: one engine invocation
on the whole file (counted by the second component); the time-stamped
segments come from the response when present and nonempty, else a single
segment over [0, duration) with the full text, duration defaulting to
300 seconds. -/
def transcribe_full_audio (resp : WhisperResponse) :
    List ASRSegment × ℕ :=
  (match resp.segments with
   | some (seg :: rest) => seg :: rest
   | _ => [⟨0, resp.duration.getD 300, resp.text⟩],
   1)

/-- Counterexample to claim C4: one session finalize whose diarization has
two tracks invokes the speech-to-text engine twice — once per track, each
time on the full session audio file — not exactly once. -/
theorem C4_counterexample :
    ((end_recording_session
        { saveAudioOk := true
          diarEnv := { pipelineLoaded := true, engineRaises := false,
                       engineTracks := [(⟨0,5⟩, "SPEAKER_00"),
                                        (⟨5,9⟩, "SPEAKER_01")],
                       audioReadOk := true, duration := 9 }
          transEnv := { openaiAvailable := true, whisperText := "hi" }
          saveTransOk := true }
        (start_recording_session [] "s1" none) "s1").1.toOption.map
      EndResult.engineCalls) =
      some [audioPathOf "s1", audioPathOf "s1"] ∧
    ([audioPathOf "s1", audioPathOf "s1"].length = 2 ∧ (2 : ℕ) ≠ 1) := by
  constructor
  · have hlk : lookupSession (start_recording_session [] "s1" none) "s1" =
        some { status := "active", audio_chunks := [],
               participants := defaultParticipants, utterances := [],
               statusHistory := ["active"] } := by decide
    rw [end_found_success _ _ _ _ hlk rfl rfl]
    rfl
  · exact ⟨rfl, by decide⟩

/-- Amended claim C4: during a session finalize the speech-to-text engine
is invoked once per diarization track, each invocation passed the full
session audio file (never a per-segment clip); invoking the engine exactly
once per audio file is the behaviour of the separate evaluation script
transcriber, transcribe_full_audio. -/
theorem C4_engine_called_per_track :
    (∀ (tenv : TranscriptionEnv) (path : String) (tracks : List Track)
        (parts : List (String × String)),
      tenv.openaiAvailable = true →
      (transcribe_speaker_segments tenv path (.real tracks) parts).2 =
        tracks.map (fun _ => path)) ∧
    (∀ (denv : DiarizationEnv) (tenv : TranscriptionEnv) (reg : Registry)
        (sid : String) (s : SessionData) (out : ProcessOutcome)
        (reg2 : Registry),
      lookupSession reg sid = some s →
      denv.pipelineLoaded = true → denv.engineRaises = false →
      tenv.openaiAvailable = true →
      process_complete_audio true denv tenv reg sid = (.ok out, reg2) →
      out.engineCalls = denv.engineTracks.map (fun _ => audioPathOf sid)) ∧
    (∀ resp : WhisperResponse, (transcribe_full_audio resp).2 = 1) := by
  have htr : ∀ (tenv : TranscriptionEnv) (path : String)
      (tracks : List Track) (parts : List (String × String)),
      tenv.openaiAvailable = true →
      (transcribe_speaker_segments tenv path (.real tracks) parts).2 =
        tracks.map (fun _ => path) := by
    intro tenv path tracks parts hopen
    unfold transcribe_speaker_segments
    show (if tenv.openaiAvailable = true
      then tracks.map (fun _ => path) else []) = tracks.map (fun _ => path)
    rw [if_pos hopen]
  refine ⟨htr, ?_, fun _ => rfl⟩
  intro denv tenv reg sid s out reg2 hlk hl hr hopen h
  rw [pca_found_saveOk denv tenv reg sid s hlk] at h
  injection h with ha hb
  injection ha with ha
  rw [← ha]
  show (transcribe_speaker_segments tenv (audioPathOf sid)
    (process_speaker_diarization denv) s.participants).2 = _
  have hreal : process_speaker_diarization denv = .real denv.engineTracks := by
    unfold process_speaker_diarization
    rw [if_pos hl, if_neg (by rw [hr]; simp)]
  rw [hreal]
  exact htr tenv (audioPathOf sid) denv.engineTracks s.participants hopen

/-- Witness for C4: one track, engine available, one invocation on the
given path. -/
theorem C4_engine_called_per_track_witness :
    (transcribe_speaker_segments
      { openaiAvailable := true, whisperText := "hi" } "p.wav"
      (.real [(⟨0,1⟩, "X")]) []).2 = ["p.wav"] :=
  C4_engine_called_per_track.1
    { openaiAvailable := true, whisperText := "hi" } "p.wav"
    [(⟨0,1⟩, "X")] [] rfl

/-! ## Claims C6, C7 and C8 -/

deriving instance DecidableEq for Except

/-- A successful end (no error dict) always ends in the success branch and
removes the session from the registry. -/
theorem end_success_removes (env : EndEnv) (reg : Registry) (sid : String)
    (res : EndResult) (reg2 : Registry)
    (h : end_recording_session env reg sid = (.ok res, reg2))
    (hsucc : res.errorDict = false) :
    lookupSession reg2 sid = none := by
  cases hlk : lookupSession reg sid with
  | none =>
    rw [end_notfound env reg sid hlk] at h
    exact Prod.noConfusion h (fun ha _ => Except.noConfusion ha)
  | some s =>
    cases hsave : env.saveAudioOk with
    | false =>
      rw [end_found_saveFail env reg sid s hlk hsave] at h
      injection h with ha hb
      injection ha with ha
      rw [← ha] at hsucc
      exact absurd hsucc (by simp)
    | true =>
      cases htrans : env.saveTransOk with
      | false =>
        rw [end_found_transFail env reg sid s hlk hsave htrans] at h
        exact Prod.noConfusion h (fun ha _ => Except.noConfusion ha)
      | true =>
        rw [end_found_success env reg sid s hlk hsave htrans] at h
        injection h with ha hb
        rw [← hb]
        exact lookupSession_eraseSession_self _ _

/-- Claim C6: end is one-shot.  A successful end removes the session from
the active registry, and any second end with the same session id raises
SessionNotFound and leaves the registry unchanged. -/
theorem C6_end_one_shot :
    ∀ (env : EndEnv) (reg : Registry) (sid : String) (res : EndResult)
      (reg2 : Registry),
      end_recording_session env reg sid = (.ok res, reg2) →
      res.errorDict = false →
      lookupSession reg2 sid = none ∧
      ∀ env2 : EndEnv, end_recording_session env2 reg2 sid =
        (.error .sessionNotFound, reg2) := by
  intro env reg sid res reg2 h hsucc
  have hnone := end_success_removes env reg sid res reg2 h hsucc
  exact ⟨hnone, fun env2 => end_notfound env2 reg2 sid hnone⟩

/-- Witness for C6: a concrete start followed by a fully successful end
leaves the registry empty, so the hypotheses of the theorem are
satisfiable. -/
theorem C6_end_one_shot_witness :
    lookupSession ([] : Registry) "s1" = none ∧
    ∀ env2 : EndEnv, end_recording_session env2 [] "s1" =
      (.error .sessionNotFound, []) :=
  C6_end_one_shot
    { saveAudioOk := true
      diarEnv := { pipelineLoaded := false, engineRaises := false,
                   engineTracks := [], audioReadOk := true, duration := 0 }
      transEnv := { openaiAvailable := false, whisperText := "" }
      saveTransOk := true }
    (start_recording_session [] "s1" none) "s1"
    { errorDict := false, status := some "completed", utterances := [],
      engineCalls := [],
      finalHistory := ["active", "processing", "processed"] }
    [] (by decide) rfl

/-- Counterexample to claim C7: when end fails at the audio-save step, the
session stays registered with status processing — not active — and
process_audio_chunk still accepts a chunk for it instead of failing with
SessionNotFound. -/
theorem C7_counterexample :
    ((lookupSession
        (end_recording_session
          { saveAudioOk := false
            diarEnv := { pipelineLoaded := false, engineRaises := false,
                         engineTracks := [], audioReadOk := true,
                         duration := 0 }
            transEnv := { openaiAvailable := false, whisperText := "" }
            saveTransOk := true }
          (start_recording_session [] "s1" none) "s1").2 "s1").map
      SessionData.status = some "processing") ∧
    ((process_audio_chunk
        (end_recording_session
          { saveAudioOk := false
            diarEnv := { pipelineLoaded := false, engineRaises := false,
                         engineTracks := [], audioReadOk := true,
                         duration := 0 }
            transEnv := { openaiAvailable := false, whisperText := "" }
            saveTransOk := true }
          (start_recording_session [] "s1" none) "s1").2 "s1" 7).1 =
      .ok 1) := by
  constructor
  · decide
  · decide

/-- Amended claim C7: process_audio_chunk fails with SessionNotFound
exactly when the session id is absent from the active registry; the status
field is never consulted, so a session left behind by a failed end accepts
chunks while its status is processing.  After a successful end the session
is removed, so appendChunk then does fail with SessionNotFound. -/
theorem C7_chunk_checks_membership_only :
    ∀ (reg : Registry) (sid : String) (chunk : ℕ),
      ((process_audio_chunk reg sid chunk).1 = .error .sessionNotFound ↔
        lookupSession reg sid = none) ∧
      (∀ s : SessionData, lookupSession reg sid = some s →
        (process_audio_chunk reg sid chunk).1 =
          .ok (s.audio_chunks.length + 1)) ∧
      (∀ (env : EndEnv) (res : EndResult) (reg2 : Registry),
        end_recording_session env reg sid = (.ok res, reg2) →
        res.errorDict = false →
        (process_audio_chunk reg2 sid chunk).1 = .error .sessionNotFound) := by
  intro reg sid chunk
  have hok : ∀ s : SessionData, lookupSession reg sid = some s →
      (process_audio_chunk reg sid chunk).1 =
        .ok (s.audio_chunks.length + 1) := by
    intro s hlk
    unfold process_audio_chunk
    rw [hlk]
    show Except.ok (s.audio_chunks ++ [chunk]).length = _
    rw [List.length_append]
    rfl
  have hnf : ∀ (r : Registry), lookupSession r sid = none →
      (process_audio_chunk r sid chunk).1 = .error .sessionNotFound := by
    intro r hlk
    unfold process_audio_chunk
    rw [hlk]
  refine ⟨⟨?_, hnf reg⟩, hok, ?_⟩
  · intro h
    cases hlk : lookupSession reg sid with
    | none => rfl
    | some s =>
      rw [hok s hlk] at h
      exact Except.noConfusion h
  · intro env res reg2 hend hsucc
    exact hnf reg2 (end_success_removes env reg sid res reg2 hend hsucc)

/-- Witness for C7: on the registry holding the single fresh session s1,
appendChunk succeeds with chunk count 1, and on the empty registry it
fails with SessionNotFound. -/
theorem C7_chunk_checks_membership_only_witness :
    ((process_audio_chunk (start_recording_session [] "s1" none) "s1"
      7).1 = .ok (([] : List ℕ).length + 1)) ∧
    ((process_audio_chunk ([] : Registry) "s1" 7).1 =
      .error .sessionNotFound) :=
  ⟨(C7_chunk_checks_membership_only
      (start_recording_session [] "s1" none) "s1" 7).2.1
    { status := "active", audio_chunks := [],
      participants := defaultParticipants, utterances := [],
      statusHistory := ["active"] } (by decide),
   ((C7_chunk_checks_membership_only ([] : Registry) "s1" 7).1).mpr rfl⟩

theorem mem_eraseSession_ne {reg : Registry} {sid : String}
    {p : String × SessionData} (h : p ∈ eraseSession reg sid) :
    p ∈ reg ∧ p.1 ≠ sid := by
  have h2 := List.mem_filter.mp h
  exact ⟨h2.1, by simpa using h2.2⟩

/-- One operation of the programmatic surface the host application
consumes: start, appendChunk, end. -/
inductive Op
  | startSession (sid : String)
      (participants : Option (List (String × String)))
  | chunk (sid : String) (c : ℕ)
  | endSession (sid : String) (env : EndEnv)

/-- Apply one operation to the registry, discarding the returned value;
a raised error leaves the registry exactly as the call left it. -/
def applyOp (reg : Registry) : Op → Registry
  | .startSession sid ps => start_recording_session reg sid ps
  | .chunk sid c => (process_audio_chunk reg sid c).2
  | .endSession sid env => (end_recording_session env reg sid).2

def runOps : List Op → Registry → Registry
  | [], reg => reg
  | op :: ops, reg => runOps ops (applyOp reg op)

/-- Every end operation of the trace has both persistence points
succeeding. -/
def endsOk : List Op → Bool
  | [] => true
  | .endSession _ env :: rest =>
    env.saveAudioOk && env.saveTransOk && endsOk rest
  | .startSession _ _ :: rest => endsOk rest
  | .chunk _ _ :: rest => endsOk rest

/-- Every registered session is freshly active — the registry invariant of
failure-free traces. -/
def allActive (reg : Registry) : Prop :=
  ∀ p ∈ reg, p.2.status = "active" ∧ p.2.statusHistory = ["active"]

theorem allActive_start (reg : Registry) (sid : String)
    (ps : Option (List (String × String))) (h : allActive reg) :
    allActive (start_recording_session reg sid ps) := by
  intro p hp
  rcases mem_updateSession hp with hp | rfl
  · exact h p hp
  · exact ⟨rfl, rfl⟩

theorem allActive_chunk (reg : Registry) (sid : String) (c : ℕ)
    (h : allActive reg) :
    allActive (process_audio_chunk reg sid c).2 := by
  cases hlk : lookupSession reg sid with
  | none =>
    unfold process_audio_chunk
    rw [hlk]
    exact h
  | some s =>
    unfold process_audio_chunk
    rw [hlk]
    intro p hp
    rcases mem_updateSession hp with hp | rfl
    · exact h p hp
    · exact h (sid, s) (mem_of_lookupSession hlk)

theorem allActive_end (env : EndEnv) (reg : Registry) (sid : String)
    (hsave : env.saveAudioOk = true) (htrans : env.saveTransOk = true)
    (h : allActive reg) :
    allActive (end_recording_session env reg sid).2 := by
  cases hlk : lookupSession reg sid with
  | none =>
    rw [end_notfound env reg sid hlk]
    exact h
  | some s =>
    rw [end_found_success env reg sid s hlk hsave htrans]
    intro p hp
    obtain ⟨hp2, hne⟩ := mem_eraseSession_ne hp
    rcases mem_updateSession hp2 with hp3 | rfl
    · rcases mem_updateSession hp3 with hp4 | rfl
      · exact h p hp4
      · exact absurd rfl hne
    · exact absurd rfl hne

theorem runOps_allActive :
    ∀ (ops : List Op) (reg : Registry), endsOk ops = true →
      allActive reg → allActive (runOps ops reg) := by
  intro ops
  induction ops with
  | nil =>
    intro reg _ h
    exact h
  | cons op ops ih =>
    intro reg hok h
    cases op with
    | startSession sid ps =>
      exact ih _ (by simpa [endsOk] using hok) (allActive_start reg sid ps h)
    | chunk sid c =>
      exact ih _ (by simpa [endsOk] using hok) (allActive_chunk reg sid c h)
    | endSession sid env =>
      have hok' : env.saveAudioOk = true ∧ env.saveTransOk = true ∧
          endsOk ops = true := by
        simpa [endsOk, Bool.and_eq_true, and_assoc] using hok
      exact ih _ hok'.2.2
        (allActive_end env reg sid hok'.1 hok'.2.1 h)

/-- The invariant holding across all traces, failing ones included: the
string completed is never assigned to the stored status field. -/
def neverCompleted (reg : Registry) : Prop :=
  ∀ p ∈ reg, p.2.status ≠ "completed" ∧
    ∀ st ∈ p.2.statusHistory, st ≠ "completed"

theorem neverCompleted_append {h1 : List String} {st2 : String}
    (hh : ∀ st ∈ h1, st ≠ "completed") (hs : st2 ≠ "completed") :
    ∀ st ∈ h1 ++ [st2], st ≠ "completed" := by
  intro st hst
  rcases List.mem_append.mp hst with hst | hst
  · exact hh st hst
  · rw [List.mem_singleton.mp hst]
    exact hs

theorem neverCompleted_start (reg : Registry) (sid : String)
    (ps : Option (List (String × String))) (h : neverCompleted reg) :
    neverCompleted (start_recording_session reg sid ps) := by
  intro p hp
  rcases mem_updateSession hp with hp | rfl
  · exact h p hp
  · refine ⟨by show ("active" : String) ≠ "completed"; decide, ?_⟩
    intro st hst
    rw [List.mem_singleton.mp hst]
    decide

theorem neverCompleted_chunk (reg : Registry) (sid : String) (c : ℕ)
    (h : neverCompleted reg) :
    neverCompleted (process_audio_chunk reg sid c).2 := by
  cases hlk : lookupSession reg sid with
  | none =>
    unfold process_audio_chunk
    rw [hlk]
    exact h
  | some s =>
    unfold process_audio_chunk
    rw [hlk]
    intro p hp
    rcases mem_updateSession hp with hp | rfl
    · exact h p hp
    · exact h (sid, s) (mem_of_lookupSession hlk)

theorem neverCompleted_end (env : EndEnv) (reg : Registry) (sid : String)
    (h : neverCompleted reg) :
    neverCompleted (end_recording_session env reg sid).2 := by
  cases hlk : lookupSession reg sid with
  | none =>
    rw [end_notfound env reg sid hlk]
    exact h
  | some s =>
    have hs := h (sid, s) (mem_of_lookupSession hlk)
    cases hsave : env.saveAudioOk with
    | false =>
      rw [end_found_saveFail env reg sid s hlk hsave]
      intro p hp
      rcases mem_updateSession hp with hp | rfl
      · exact h p hp
      · exact ⟨by show ("processing" : String) ≠ "completed"; decide,
          neverCompleted_append hs.2 (by decide)⟩
    | true =>
      cases htrans : env.saveTransOk with
      | false =>
        rw [end_found_transFail env reg sid s hlk hsave htrans]
        intro p hp
        rcases mem_updateSession hp with hp2 | rfl
        · rcases mem_updateSession hp2 with hp3 | rfl
          · exact h p hp3
          · exact ⟨by show ("processing" : String) ≠ "completed"; decide,
              neverCompleted_append hs.2 (by decide)⟩
        · refine ⟨by show ("processed" : String) ≠ "completed"; decide, ?_⟩
          show ∀ st ∈ (s.statusHistory ++ ["processing"]) ++ ["processed"],
            st ≠ "completed"
          exact neverCompleted_append
            (neverCompleted_append hs.2 (by decide)) (by decide)
      | true =>
        rw [end_found_success env reg sid s hlk hsave htrans]
        intro p hp
        obtain ⟨hp2, hne⟩ := mem_eraseSession_ne hp
        rcases mem_updateSession hp2 with hp3 | rfl
        · rcases mem_updateSession hp3 with hp4 | rfl
          · exact h p hp4
          · exact absurd rfl hne
        · exact absurd rfl hne

theorem runOps_neverCompleted :
    ∀ (ops : List Op) (reg : Registry), neverCompleted reg →
      neverCompleted (runOps ops reg) := by
  intro ops
  induction ops with
  | nil =>
    intro reg h
    exact h
  | cons op ops ih =>
    intro reg h
    cases op with
    | startSession sid ps => exact ih _ (neverCompleted_start reg sid ps h)
    | chunk sid c => exact ih _ (neverCompleted_chunk reg sid c h)
    | endSession sid env => exact ih _ (neverCompleted_end env reg sid h)

/-- Counterexample to claim C8: the operation sequence start then end, with
the audio save succeeding and the transcription save raising, leaves the
session registered with stored status processed — a value outside the
claimed chain active, processing, completed — after the recorded
assignment history active, processing, processed; the stored status string
completed never occurs. -/
theorem C8_counterexample :
    ((lookupSession
        (end_recording_session
          { saveAudioOk := true
            diarEnv := { pipelineLoaded := false, engineRaises := false,
                         engineTracks := [], audioReadOk := true,
                         duration := 0 }
            transEnv := { openaiAvailable := false, whisperText := "" }
            saveTransOk := false }
          (start_recording_session [] "s1" none) "s1").2 "s1").map
      SessionData.status = some "processed") ∧
    ((lookupSession
        (end_recording_session
          { saveAudioOk := true
            diarEnv := { pipelineLoaded := false, engineRaises := false,
                         engineTracks := [], audioReadOk := true,
                         duration := 0 }
            transEnv := { openaiAvailable := false, whisperText := "" }
            saveTransOk := false }
          (start_recording_session [] "s1" none) "s1").2 "s1").map
      SessionData.statusHistory =
        some ["active", "processing", "processed"]) ∧
    "processed" ∉ (["active", "processing", "completed"] : List String) := by
  refine ⟨?_, ?_, by decide⟩
  · decide
  · decide

/-- Amended claim C8: the stored status values move along active,
processing, processed — the string completed is never stored, it appears
only in the payload of a fully successful end, which removes the session.
In any operation sequence whose end calls all succeed, every session still
registered is active with history [active]; ending such a session records
exactly the assignment history active, processing, processed, reports
status completed, and removes the session. -/
theorem C8_status_chain :
    (∀ ops : List Op, neverCompleted (runOps ops [])) ∧
    (∀ ops : List Op, endsOk ops = true → allActive (runOps ops [])) ∧
    (∀ (env : EndEnv) (reg : Registry) (sid : String) (s : SessionData)
        (res : EndResult) (reg2 : Registry),
      env.saveAudioOk = true → env.saveTransOk = true →
      lookupSession reg sid = some s → s.statusHistory = ["active"] →
      end_recording_session env reg sid = (.ok res, reg2) →
      res.finalHistory = ["active", "processing", "processed"] ∧
      res.status = some "completed" ∧ lookupSession reg2 sid = none) := by
  refine ⟨?_, ?_, ?_⟩
  · intro ops
    exact runOps_neverCompleted ops [] (by intro p hp; cases hp)
  · intro ops hok
    exact runOps_allActive ops [] hok (by intro p hp; cases hp)
  · intro env reg sid s res reg2 hsave htrans hlk hhist hend
    rw [end_found_success env reg sid s hlk hsave htrans] at hend
    injection hend with ha hb
    injection ha with ha
    refine ⟨?_, ?_, ?_⟩
    · rw [← ha]
      show (s.statusHistory ++ ["processing"]) ++ ["processed"] = _
      rw [hhist]
      rfl
    · rw [← ha]
    · rw [← hb]
      exact lookupSession_eraseSession_self _ _

/-- Witness for C8: on the fresh session s1 a fully successful end records
the history active, processing, processed, reports completed, and leaves
the registry empty. -/
theorem C8_status_chain_witness :
    ({ errorDict := false, status := some "completed",
       utterances := ([] : List ServiceUtterance),
       engineCalls := ([] : List String),
       finalHistory := ["active", "processing", "processed"] }
        : EndResult).finalHistory =
      ["active", "processing", "processed"] ∧
    ({ errorDict := false, status := some "completed",
       utterances := ([] : List ServiceUtterance),
       engineCalls := ([] : List String),
       finalHistory := ["active", "processing", "processed"] }
        : EndResult).status = some "completed" ∧
    lookupSession ([] : Registry) "s1" = none :=
  C8_status_chain.2.2
    { saveAudioOk := true
      diarEnv := { pipelineLoaded := false, engineRaises := false,
                   engineTracks := [], audioReadOk := true, duration := 0 }
      transEnv := { openaiAvailable := false, whisperText := "" }
      saveTransOk := true }
    (start_recording_session [] "s1" none) "s1"
    { status := "active", audio_chunks := [],
      participants := defaultParticipants, utterances := [],
      statusHistory := ["active"] }
    { errorDict := false, status := some "completed", utterances := [],
      engineCalls := [],
      finalHistory := ["active", "processing", "processed"] }
    [] rfl rfl (by decide) rfl (by decide)
